import Mathlib

/-!
Shallow embedding of the local journaling state engine of the `unposted`
repository: the journal data model (`types/journal.ts`), the zustand store
(`store/journals.ts`, given as `src/unnamed/part_001`), the Dexie persistence
layer (`store/db.ts`, given as `src/unnamed/part_002`), the recorder component
(`components/Recorder.tsx`) and the entry construction in `pages/Journals.tsx`.

Modelling conventions:
- `createdAt` ISO strings are modelled as `Int` milliseconds since the epoch;
  `new Date(x).getTime()` on the stored string is the identity under this
  abstraction, and Dexie's lexicographic index order on same-format ISO
  strings coincides with the numeric order.
- `Blob` values are opaque and modelled as `Nat` tokens.
- `URL.createObjectURL` / `URL.revokeObjectURL` are modelled by a fresh-name
  allocator threaded through the state (`nextUrl`, `live`), the blob-URL test
  `startsWith("blob:")` by the `AudioUrl.blobUrl` constructor, and every
  allocator / store side effect is also appended to an event `trace` so that
  temporal ordering claims are expressible.
- A rejected persistence promise is modelled by the `ok : Bool` parameter of
  the repository operations: `ok = false` means the awaited store call fails,
  the code after the `await` does not run, and the operation reports a
  `PersistenceError`.
- `Math.ceil((a - b) / 86400000)` on JS doubles equals the exact rational
  ceiling for all timestamp differences below 2^20 days, so it is modelled by
  exact integer ceiling division.
-/

/-- A transient playback handle: either an object URL minted by
`URL.createObjectURL` (a `blob:` URL, carrying its allocation token) or some
other, externally supplied URL string. -/
inductive AudioUrl where
  | blobUrl (n : Nat)
  | extUrl (s : String)
deriving DecidableEq

/-- The `JournalEntry` record of `types/journal.ts`. -/
structure JournalEntry where
  id : String
  createdAt : Int
  transcript : String
  duration : Int
  audioBlob : Option Nat
  audioUrl : Option AudioUrl
  encrypted : Bool
  title : Option String
  emotion : Option String
deriving DecidableEq

/-- Observable side effects of the store and of the object-URL API, in
execution order. -/
inductive HEvent where
  | created (n : Nat)
  | revoked (n : Nat)
  | saved (id : String)
  | deleted (id : String)
  | cleared
deriving DecidableEq

/-- The persistence error surfaced when an awaited store call rejects. -/
inductive PersistenceError where
  | mk
deriving DecidableEq

/-- Combined state: the zustand store fields (`entries`, `hydrated`), the
Dexie table (`store`), and the object-URL allocator (`nextUrl`, `live`)
together with the event `trace`. -/
structure JournalState where
  entries : List JournalEntry
  hydrated : Bool
  store : List JournalEntry
  nextUrl : Nat
  live : List Nat
  trace : List HEvent
deriving DecidableEq

/-- The initial state: empty memory, empty table, fresh allocator. -/
def initState : JournalState :=
  { entries := [], hydrated := false, store := [], nextUrl := 0, live := [], trace := [] }

/-- `URL.createObjectURL(blob)`: mints a fresh blob URL. -/
def createObjectURL (_blob : Nat) (s : JournalState) : AudioUrl × JournalState :=
  (AudioUrl.blobUrl s.nextUrl,
   { s with nextUrl := s.nextUrl + 1,
            live := s.live ++ [s.nextUrl],
            trace := s.trace ++ [HEvent.created s.nextUrl] })

/-- `URL.revokeObjectURL(url)` for a blob URL token. -/
def revokeObjectURL (n : Nat) (s : JournalState) : JournalState :=
  { s with live := s.live.filter (fun m => m != n),
           trace := s.trace ++ [HEvent.revoked n] }

/-- `revokeAudioUrl` from `db.ts`: revokes the entry's `audioUrl` only when it
is present and starts with `blob:`. -/
def revokeAudioUrl (e : JournalEntry) (s : JournalState) : JournalState :=
  match e.audioUrl with
  | some (AudioUrl.blobUrl n) => revokeObjectURL n s
  | _ => s

/-- The projection that `saveJournal` persists: every field of the entry with
the transient `audioUrl` handle stripped (`audioUrl: undefined`). -/
def persistedPart (e : JournalEntry) : JournalEntry :=
  { e with audioUrl := none }

/-- Dexie `put` upserts by the primary key `id`. -/
def upsertById (rec : JournalEntry) (tbl : List JournalEntry) : List JournalEntry :=
  if tbl.any (fun r => r.id == rec.id) then
    tbl.map (fun r => if r.id == rec.id then rec else r)
  else tbl ++ [rec]

/-- `saveJournal` from `db.ts`: strips `audioUrl` and upserts the record. -/
def saveJournal (e : JournalEntry) (s : JournalState) : JournalState :=
  { s with store := upsertById (persistedPart e) s.store,
           trace := s.trace ++ [HEvent.saved e.id] }

/-- `deleteJournal` from `db.ts`. -/
def deleteJournal (id : String) (s : JournalState) : JournalState :=
  { s with store := s.store.filter (fun r => r.id != id),
           trace := s.trace ++ [HEvent.deleted id] }

/-- `clearJournals` from `db.ts`. -/
def clearJournals (s : JournalState) : JournalState :=
  { s with store := [], trace := s.trace ++ [HEvent.cleared] }

/-- The descending-`createdAt` comparator of both `getAllJournals`
(`orderBy("createdAt").reverse()`) and `getStreakCount`
(`(a, b) => b.getTime() - a.getTime()`): `a` precedes `b` when `a` is at
least as new. -/
def entryLe (a b : JournalEntry) : Prop := b.createdAt ≤ a.createdAt

instance : DecidableRel entryLe := fun a b => Int.decLe b.createdAt a.createdAt

instance : IsTotal JournalEntry entryLe := ⟨fun a b => le_total b.createdAt a.createdAt⟩

instance : IsTrans JournalEntry entryLe := ⟨fun _ _ _ h1 h2 => le_trans h2 h1⟩

/-- A stable sort by `createdAt` descending (JS `Array.prototype.sort` is
stable). -/
def sortByCreatedAtDesc (l : List JournalEntry) : List JournalEntry :=
  l.insertionSort entryLe

/-- The `records.map` body of `getAllJournals`: re-derives the transient
handle from the stored payload when no handle is present, threading the
object-URL allocator. -/
def deriveUrls : List JournalEntry → JournalState → List JournalEntry × JournalState
  | [], s => ([], s)
  | e :: rest, s =>
    match e.audioUrl with
    | some _ =>
      let p := deriveUrls rest s
      (e :: p.1, p.2)
    | none =>
      match e.audioBlob with
      | some b =>
        let u := createObjectURL b s
        let p := deriveUrls rest u.2
        ({ e with audioUrl := some u.1 } :: p.1, p.2)
      | none =>
        let p := deriveUrls rest s
        (e :: p.1, p.2)

/-- `getAllJournals` from `db.ts`: the table ordered by `createdAt`
descending, with transient handles re-derived. -/
def getAllJournals (s : JournalState) : List JournalEntry × JournalState :=
  deriveUrls (sortByCreatedAtDesc s.store) s

/-- `addEntry` from `store/journals.ts`. The handle derivation
(`entry.audioUrl ?? (entry.audioBlob ? URL.createObjectURL(...) : undefined)`)
runs before the awaited write; on write failure the code after the `await`
does not run. -/
def addEntry (ok : Bool) (entry : JournalEntry) (s : JournalState) :
    JournalState × Option PersistenceError :=
  let d : Option AudioUrl × JournalState :=
    match entry.audioUrl with
    | some u => (some u, s)
    | none =>
      match entry.audioBlob with
      | some b =>
        let u := createObjectURL b s
        (some u.1, u.2)
      | none => (none, s)
  let nextEntry := { entry with audioUrl := d.1 }
  if ok then
    let s2 := saveJournal nextEntry d.2
    ({ s2 with entries := nextEntry :: s2.entries }, none)
  else (d.2, some PersistenceError.mk)

/-- `Partial- JournalEntry-` patch: an absent field leaves the field of the
patched entry unchanged. -/
structure JournalPatch where
  id : Option String := none
  createdAt : Option Int := none
  transcript : Option String := none
  duration : Option Int := none
  audioBlob : Option Nat := none
  audioUrl : Option AudioUrl := none
  encrypted : Option Bool := none
  title : Option String := none
  emotion : Option String := none
deriving DecidableEq

/-- The spread merge of `updateEntry`. -/
def applyPatch (e : JournalEntry) (p : JournalPatch) : JournalEntry :=
  { id := p.id.getD e.id,
    createdAt := p.createdAt.getD e.createdAt,
    transcript := p.transcript.getD e.transcript,
    duration := p.duration.getD e.duration,
    audioBlob := p.audioBlob.orElse (fun _ => e.audioBlob),
    audioUrl := p.audioUrl.orElse (fun _ => e.audioUrl),
    encrypted := p.encrypted.getD e.encrypted,
    title := p.title.orElse (fun _ => e.title),
    emotion := p.emotion.orElse (fun _ => e.emotion) }

/-- `updateEntry` from `store/journals.ts`: no-op on a missing id; when the
patch carries an audio payload, the code mints the new object URL first and
then revokes the previous handle; write-then-reflect on the store. -/
def updateEntry (ok : Bool) (id : String) (p : JournalPatch) (s : JournalState) :
    JournalState × Option PersistenceError :=
  match s.entries.find? (fun e => e.id == id) with
  | none => (s, none)
  | some existing =>
    let merged := applyPatch existing p
    let m : JournalEntry × JournalState :=
      match p.audioBlob with
      | some b =>
        let u := createObjectURL b s
        let sB := revokeAudioUrl existing u.2
        ({ merged with audioUrl := some u.1 }, sB)
      | none => (merged, s)
    if ok then
      let s2 := saveJournal m.1 m.2
      ({ s2 with entries := s2.entries.map (fun e => if e.id == id then m.1 else e) }, none)
    else (m.2, some PersistenceError.mk)

/-- `removeEntry` from `store/journals.ts`: durable delete first, then the
state update revokes the found entry's handle and filters it out. -/
def removeEntry (ok : Bool) (id : String) (s : JournalState) :
    JournalState × Option PersistenceError :=
  if ok then
    let s1 := deleteJournal id s
    let s2 :=
      match s1.entries.find? (fun e => e.id == id) with
      | some e => revokeAudioUrl e s1
      | none => s1
    ({ s2 with entries := s2.entries.filter (fun e => e.id != id) }, none)
  else (s, some PersistenceError.mk)

/-- `clearAll` from `store/journals.ts`: durable clear, then every in-memory
entry's handle is revoked and memory emptied. -/
def clearAll (ok : Bool) (s : JournalState) : JournalState × Option PersistenceError :=
  if ok then
    let s1 := clearJournals s
    let s2 := s.entries.foldl (fun acc e => revokeAudioUrl e acc) s1
    ({ s2 with entries := [] }, none)
  else (s, some PersistenceError.mk)

/-- `hydrate` from `store/journals.ts`: a no-op when already hydrated,
otherwise replaces memory with the store contents. -/
def hydrate (s : JournalState) : JournalState :=
  if s.hydrated then s
  else
    let p := getAllJournals s
    { p.2 with entries := p.1, hydrated := true }

/-- Exact integer ceiling division for a positive divisor, the value of
`Math.ceil(a / b)`. -/
def ceilDiv (a b : Int) : Int := -(Int.ediv (-a) b)

/-- The loop body of `getStreakCount`: `diff == 0` skips, `diff == 1`
increments and moves the cursor, anything else breaks. -/
def streakWalk (current : Int) (streak : Nat) : List JournalEntry → Nat
  | [] => streak
  | e :: rest =>
    let diff := ceilDiv (current - e.createdAt) 86400000
    if diff = 0 then streakWalk current streak rest
    else if diff = 1 then streakWalk e.createdAt (streak + 1) rest
    else streak

/-- `getStreakCount` on an entry list: sorts a copy descending by
`createdAt` and walks it. -/
def streakOfEntries (l : List JournalEntry) : Nat :=
  match sortByCreatedAtDesc l with
  | [] => 0
  | e :: rest => streakWalk e.createdAt 1 rest

/-- `getStreakCount` from `store/journals.ts`. -/
def getStreakCount (s : JournalState) : Nat :=
  streakOfEntries s.entries

/-- UTC calendar-day number of an epoch-millisecond instant. -/
def dayNumber (t : Int) : Int := Int.ediv t 86400000

/-- Walk of the calendar-day streak algorithm as the spec words it:
`gapDays = cursor.dayNumber - entryDate.dayNumber`; gap 0 skips, gap 1
increments and moves the cursor, anything else ends the walk. -/
def calendarGo (cursorDay : Int) (k : Nat) : List JournalEntry → Nat
  | [] => k
  | e :: rest =>
    let g := cursorDay - dayNumber e.createdAt
    if g = 0 then calendarGo cursorDay k rest
    else if g = 1 then calendarGo (dayNumber e.createdAt) (k + 1) rest
    else k

/-- The streak function exactly as the spec describes it (calendar days, not
instants), written from the spec words for comparison against
`getStreakCount`. Takes a newest-first list. -/
def calendarStreak : List JournalEntry → Nat
  | [] => 0
  | e :: rest => calendarGo (dayNumber e.createdAt) 1 rest

/-- The walk `getStreakCount` actually performs, restated on bare timestamp
lists: the gap is the ceiling of the instant difference over 86400000 ms. -/
def ceilGo (c : Int) (k : Nat) : List Int → Nat
  | [] => k
  | t :: rest =>
    let g := ceilDiv (c - t) 86400000
    if g = 0 then ceilGo c k rest
    else if g = 1 then ceilGo t (k + 1) rest
    else k

/-- Instant-based streak over a newest-first timestamp list. -/
def ceilStreakSpec : List Int → Nat
  | [] => 0
  | t :: rest => ceilGo t 1 rest

/-- An entry with the given id and timestamp and neutral remaining fields. -/
def entryAt (id : String) (t : Int) : JournalEntry :=
  { id := id, createdAt := t, transcript := "", duration := 0,
    audioBlob := none, audioUrl := none, encrypted := false,
    title := none, emotion := none }

/-- Day 1, 10:00 UTC. -/
def eDay1a : JournalEntry := entryAt "a" 122400000

/-- Day 1, 09:00 UTC. -/
def eDay1b : JournalEntry := entryAt "b" 118800000

lemma streakWalk_map (c : Int) (k : Nat) (l : List JournalEntry) :
    streakWalk c k l = ceilGo c k (l.map JournalEntry.createdAt) := by
  induction l generalizing c k with
  | nil => rfl
  | cons e rest ih =>
    simp only [streakWalk, ceilGo, List.map_cons]
    split
    · exact ih c k
    · split
      · exact ih e.createdAt (k + 1)
      · rfl

lemma streakOfEntries_eq (l : List JournalEntry) :
    streakOfEntries l = ceilStreakSpec ((sortByCreatedAtDesc l).map JournalEntry.createdAt) := by
  unfold streakOfEntries
  cases h : sortByCreatedAtDesc l with
  | nil => simp [ceilStreakSpec]
  | cons e rest => simp [ceilStreakSpec, streakWalk_map]

/-- Claim C1 (counterexample): two entries on the same calendar day (day 1,
10:00 and 09:00 UTC) give a streak of 2 in the code, while the calendar-day
algorithm of the claim gives 1 — same-day entries at different times DO
increment the count. -/
theorem c1_counterexample :
    dayNumber eDay1a.createdAt = dayNumber eDay1b.createdAt ∧
    getStreakCount { initState with entries := [eDay1a, eDay1b] } = 2 ∧
    calendarStreak [eDay1a, eDay1b] = 1 := by
  decide

/-- Claim C1 (amended): the streak walk operates on instants, not calendar
days. For every state, `getStreakCount` sorts the entries by `createdAt`
descending and equals the instant-based walk over the resulting timestamps:
an empty list gives 0; otherwise the count starts at 1 with the cursor at the
newest instant, a gap of `ceil((cursor - t) / 86400000 ms)` equal to 0
(identical instants) skips, equal to 1 (within the preceding 24 hours)
increments and moves the cursor, and anything greater ends the walk. -/
theorem c1_amended (s : JournalState) :
    getStreakCount s = ceilStreakSpec ((sortByCreatedAtDesc s.entries).map JournalEntry.createdAt) := by
  unfold getStreakCount
  exact streakOfEntries_eq s.entries

instance : IsAntisymm Int (fun a b : Int => b ≤ a) :=
  ⟨fun _ _ h1 h2 => le_antisymm h2 h1⟩

lemma pairwise_entryLe_iff (l : List JournalEntry) :
    List.Pairwise entryLe l ↔
      List.Pairwise (fun a b : Int => b ≤ a) (l.map JournalEntry.createdAt) := by
  rw [List.pairwise_map]
  exact Iff.rfl

lemma sorted_sortByCreatedAtDesc (l : List JournalEntry) :
    List.Pairwise entryLe (sortByCreatedAtDesc l) :=
  List.sorted_insertionSort entryLe l

lemma perm_sortByCreatedAtDesc (l : List JournalEntry) :
    (sortByCreatedAtDesc l).Perm l :=
  List.perm_insertionSort entryLe l

lemma map_sort_eq_of_perm {l1 l2 : List JournalEntry} (h : l1.Perm l2) :
    (sortByCreatedAtDesc l1).map JournalEntry.createdAt
      = (sortByCreatedAtDesc l2).map JournalEntry.createdAt := by
  refine List.eq_of_perm_of_sorted (r := fun a b : Int => b ≤ a) ?_ ?_ ?_
  · exact ((perm_sortByCreatedAtDesc l1).map _).trans
      ((h.map _).trans ((perm_sortByCreatedAtDesc l2).map _).symm)
  · exact (pairwise_entryLe_iff _).mp (sorted_sortByCreatedAtDesc l1)
  · exact (pairwise_entryLe_iff _).mp (sorted_sortByCreatedAtDesc l2)

/-- A state holding the two day-1 entries newest-first. -/
def stPermA : JournalState := { initState with entries := [eDay1a, eDay1b] }

/-- The same two entries in the opposite order. -/
def stPermB : JournalState := { initState with entries := [eDay1b, eDay1a] }

/-- Claim C10: `getStreakCount` is invariant under permutation of the
in-memory entries list — it sorts a private copy by `createdAt` descending
before walking, so its value depends only on the multiset of entries. -/
theorem c10 (s1 s2 : JournalState) (h : s1.entries.Perm s2.entries) :
    getStreakCount s1 = getStreakCount s2 := by
  unfold getStreakCount
  rw [streakOfEntries_eq, streakOfEntries_eq, map_sort_eq_of_perm h]

/-- Witness for C10 at the two concrete permuted states. -/
theorem c10_witness :
    stPermA.entries.Perm stPermB.entries ∧
      getStreakCount stPermA = getStreakCount stPermB :=
  ⟨by decide, c10 stPermA stPermB (by decide)⟩

/-- Claim C2 (counterexample): adding an entry with `createdAt = 5` and then
one with `createdAt = 3` leaves the in-memory list `[3, 5]` — `addEntry`
prepends without re-sorting, so `all()` is not sorted by `createdAt`
descending after out-of-order insertion. -/
theorem c2_counterexample :
    ¬ List.Pairwise entryLe
      (addEntry true (entryAt "o" 3) ((addEntry true (entryAt "n" 5) initState).1)).1.entries := by
  decide

/-- The transient handle `addEntry` attaches: the supplied one, else a fresh
blob URL when a payload is present, else nothing. -/
def derivedUrlFor (e : JournalEntry) (ctr : Nat) : Option AudioUrl :=
  match e.audioUrl with
  | some u => some u
  | none =>
    match e.audioBlob with
    | some _ => some (AudioUrl.blobUrl ctr)
    | none => none

lemma addEntry_true_entries (e : JournalEntry) (s : JournalState) :
    (addEntry true e s).1.entries
      = { e with audioUrl := derivedUrlFor e s.nextUrl } :: s.entries := by
  unfold addEntry derivedUrlFor
  cases hu : e.audioUrl with
  | some u => simp [saveJournal]
  | none => cases hb : e.audioBlob <;> simp [saveJournal, createObjectURL]

lemma revokeAudioUrl_entries (e : JournalEntry) (s : JournalState) :
    (revokeAudioUrl e s).entries = s.entries := by
  unfold revokeAudioUrl revokeObjectURL
  split <;> rfl

lemma removeEntry_true_entries (id : String) (s : JournalState) :
    (removeEntry true id s).1.entries = s.entries.filter (fun e => e.id != id) := by
  unfold removeEntry deleteJournal
  split
  · dsimp only
    split <;> simp [revokeAudioUrl_entries]
  · simp_all

lemma deriveUrls_map_createdAt (l : List JournalEntry) (s : JournalState) :
    ((deriveUrls l s).1).map JournalEntry.createdAt = l.map JournalEntry.createdAt := by
  induction l generalizing s with
  | nil => rfl
  | cons e rest ih =>
    unfold deriveUrls
    cases hu : e.audioUrl with
    | some u => simp [ih]
    | none => cases hb : e.audioBlob <;> simp [ih]

lemma hydrate_entries_of_not_hydrated {s : JournalState} (h : s.hydrated = false) :
    (hydrate s).entries = (deriveUrls (sortByCreatedAtDesc s.store) s).1 := by
  unfold hydrate getAllJournals
  rw [h]
  simp

/-- Claim C2 (amended): `all()` is not re-sorted on insertion. The in-memory
list is sorted by `createdAt` descending after the effective `hydrate` (the
store load is sorted); `addEntry` merely prepends, so it preserves the
ordering exactly when the new entry is at least as new as every entry in
memory; `removeEntry` and `clearAll` preserve the ordering. -/
theorem c2_amended (s : JournalState) (e : JournalEntry) (id : String) :
    (s.hydrated = false → List.Pairwise entryLe (hydrate s).entries) ∧
    (List.Pairwise entryLe s.entries →
      (∀ x ∈ s.entries, x.createdAt ≤ e.createdAt) →
      List.Pairwise entryLe ((addEntry true e s).1.entries)) ∧
    (List.Pairwise entryLe s.entries →
      List.Pairwise entryLe ((removeEntry true id s).1.entries)) ∧
    List.Pairwise entryLe ((clearAll true s).1.entries) := by
  refine ⟨?_, ?_, ?_, ?_⟩
  · intro h
    rw [hydrate_entries_of_not_hydrated h, pairwise_entryLe_iff, deriveUrls_map_createdAt]
    rw [← pairwise_entryLe_iff]
    exact sorted_sortByCreatedAtDesc s.store
  · intro hs hnew
    rw [addEntry_true_entries]
    exact List.Pairwise.cons (fun x hx => hnew x hx) hs
  · intro hs
    rw [removeEntry_true_entries]
    exact hs.filter _
  · unfold clearAll clearJournals
    simp

/-- A state holding one entry with id `x` at time 10. -/
def stOneX : JournalState := { initState with entries := [entryAt "x" 10] }

/-- A fresh state whose store holds two entries. -/
def stStorePQ : JournalState := { initState with store := [entryAt "p" 7, entryAt "q" 9] }

/-- Witness for C2 (amended) at concrete inputs: adding a newer entry to a
sorted one-entry state keeps the order, and hydrating a fresh store yields a
sorted list. -/
theorem c2_witness :
    (List.Pairwise entryLe stOneX.entries ∧
      (∀ x ∈ stOneX.entries, x.createdAt ≤ (entryAt "y" 20).createdAt) ∧
      List.Pairwise entryLe ((addEntry true (entryAt "y" 20) stOneX).1.entries)) ∧
    (stStorePQ.hydrated = false ∧
      List.Pairwise entryLe (hydrate stStorePQ).entries) :=
  ⟨⟨by decide, by decide,
    (c2_amended stOneX (entryAt "y" 20) "x").2.1 (by decide) (by decide)⟩,
   ⟨rfl, (c2_amended stStorePQ (entryAt "y" 20) "x").1 rfl⟩⟩

lemma createObjectURL_entries (b : Nat) (s : JournalState) :
    (createObjectURL b s).2.entries = s.entries := rfl

/-- Claim C3: when the awaited durable write or delete fails during `add`,
`update` (on a present id) or `remove`, the operation reports the
`PersistenceError` and the in-memory entries list is exactly what it was
before the call. -/
theorem c3 (e : JournalEntry) (id : String) (p : JournalPatch) (s : JournalState)
    (h : (s.entries.find? (fun x => x.id == id)).isSome = true) :
    ((addEntry false e s).1.entries = s.entries ∧
      (addEntry false e s).2 = some PersistenceError.mk) ∧
    ((updateEntry false id p s).1.entries = s.entries ∧
      (updateEntry false id p s).2 = some PersistenceError.mk) ∧
    ((removeEntry false id s).1.entries = s.entries ∧
      (removeEntry false id s).2 = some PersistenceError.mk) := by
  obtain ⟨ex, hex⟩ := Option.isSome_iff_exists.mp h
  refine ⟨⟨?_, ?_⟩, ⟨?_, ?_⟩, ⟨?_, ?_⟩⟩
  · unfold addEntry
    cases hu : e.audioUrl with
    | some u => rfl
    | none => cases hb : e.audioBlob <;> rfl
  · unfold addEntry
    cases hu : e.audioUrl with
    | some u => rfl
    | none => cases hb : e.audioBlob <;> rfl
  · unfold updateEntry
    rw [hex]
    dsimp only
    cases hb : p.audioBlob with
    | some b => simp [revokeAudioUrl_entries, createObjectURL_entries]
    | none => rfl
  · unfold updateEntry
    rw [hex]
    dsimp only
    cases hb : p.audioBlob <;> rfl
  · rfl
  · rfl

/-- Witness for C3 at a concrete one-entry state. -/
theorem c3_witness :
    (stOneX.entries.find? (fun x => x.id == "x")).isSome = true ∧
    (((addEntry false (entryAt "y" 20) stOneX).1.entries = stOneX.entries ∧
        (addEntry false (entryAt "y" 20) stOneX).2 = some PersistenceError.mk) ∧
      ((updateEntry false "x" {} stOneX).1.entries = stOneX.entries ∧
        (updateEntry false "x" {} stOneX).2 = some PersistenceError.mk) ∧
      ((removeEntry false "x" stOneX).1.entries = stOneX.entries ∧
        (removeEntry false "x" stOneX).2 = some PersistenceError.mk)) :=
  ⟨by decide, c3 (entryAt "y" 20) "x" {} stOneX (by decide)⟩

/-- `occursBefore a b tr` holds when some occurrence of `a` strictly precedes
an occurrence of `b` in the trace. -/
def occursBefore (a b : HEvent) : List HEvent → Bool
  | [] => false
  | x :: rest => if x = a then decide (b ∈ rest) else occursBefore a b rest

/-- An entry owning the live blob handle 0. -/
def eC4 : JournalEntry :=
  { entryAt "a" 10 with audioBlob := some 7, audioUrl := some (AudioUrl.blobUrl 0) }

/-- A state holding `eC4` with its handle live and the allocator at 1. -/
def sC4 : JournalState :=
  { initState with entries := [eC4], nextUrl := 1, live := [0] }

/-- A patch replacing the audio payload. -/
def patchC4 : JournalPatch := { audioBlob := some 9 }

/-- Claim C4 (counterexample): updating `eC4` with a new audio payload emits
`created 1` strictly before `revoked 0` — the new handle is derived first,
then the previous one is released, the opposite of the claimed order. -/
theorem c4_counterexample :
    (updateEntry true "a" patchC4 sC4).1.trace
      = [HEvent.created 1, HEvent.revoked 0, HEvent.saved "a"] ∧
    occursBefore (HEvent.revoked 0) (HEvent.created 1)
      (updateEntry true "a" patchC4 sC4).1.trace = false ∧
    occursBefore (HEvent.created 1) (HEvent.revoked 0)
      (updateEntry true "a" patchC4 sC4).1.trace = true := by
  decide

/-- The revocation events `revokeAudioUrl` emits for an entry: one `revoked`
event when the entry holds a blob handle, none otherwise. -/
def revTraceOf (e : JournalEntry) : List HEvent :=
  match e.audioUrl with
  | some (AudioUrl.blobUrl n) => [HEvent.revoked n]
  | _ => []

/-- Claim C4 (amended): when `update(id, patch)` replaces the audio payload of
an existing entry, the new handle is derived first and the previous handle is
released immediately afterwards — both before the durable write — and the
previous blob handle is no longer live afterwards. -/
theorem c4_amended (s : JournalState) (id : String) (p : JournalPatch)
    (ex : JournalEntry) (b : Nat)
    (hex : s.entries.find? (fun x => x.id == id) = some ex)
    (hb : p.audioBlob = some b) :
    (updateEntry true id p s).1.trace
      = s.trace ++ [HEvent.created s.nextUrl] ++ revTraceOf ex
          ++ [HEvent.saved (applyPatch ex p).id] ∧
    (∀ n, ex.audioUrl = some (AudioUrl.blobUrl n) →
      n ∉ (updateEntry true id p s).1.live) := by
  constructor
  · unfold updateEntry
    rw [hex]
    dsimp only
    rw [hb]
    unfold revTraceOf revokeAudioUrl createObjectURL revokeObjectURL saveJournal
    cases hu : ex.audioUrl with
    | none => simp
    | some u => cases u <;> simp
  · intro n hn
    unfold updateEntry
    rw [hex]
    dsimp only
    rw [hb]
    unfold revokeAudioUrl createObjectURL revokeObjectURL saveJournal
    rw [hn]
    simp [List.mem_filter]

/-- Witness for C4 (amended) at the concrete update of `eC4`. -/
theorem c4_witness :
    sC4.entries.find? (fun x => x.id == "a") = some eC4 ∧
    patchC4.audioBlob = some 9 ∧
    ((updateEntry true "a" patchC4 sC4).1.trace
        = sC4.trace ++ [HEvent.created sC4.nextUrl] ++ revTraceOf eC4
            ++ [HEvent.saved (applyPatch eC4 patchC4).id] ∧
      (∀ n, eC4.audioUrl = some (AudioUrl.blobUrl n) →
        n ∉ (updateEntry true "a" patchC4 sC4).1.live)) :=
  ⟨by decide, rfl, c4_amended sC4 "a" patchC4 eC4 9 (by decide) rfl⟩

/-- An entry carrying an audio payload and no handle yet. -/
def eC5 : JournalEntry := { entryAt "c" 10 with audioBlob := some 3 }

/-- Claim C5 (counterexample): `add` before hydration derives handle 0, and
the subsequent effective `hydrate` replaces the in-memory list with a freshly
decorated copy (handle 1) without revoking handle 0 — handle 0 stays live but
is referenced by no in-memory entry, and two live handles were derived for
the single entry. -/
theorem c5_counterexample :
    0 ∈ (hydrate ((addEntry true eC5 initState).1)).live ∧
    1 ∈ (hydrate ((addEntry true eC5 initState).1)).live ∧
    (∀ e ∈ (hydrate ((addEntry true eC5 initState).1)).entries,
      e.audioUrl ≠ some (AudioUrl.blobUrl 0)) := by
  decide

lemma revokeAudioUrl_live_subset (e : JournalEntry) (t : JournalState) :
    (revokeAudioUrl e t).live ⊆ t.live := by
  unfold revokeAudioUrl revokeObjectURL
  split
  · exact fun m hm => (List.mem_filter.mp hm).1
  · exact fun m hm => hm

lemma foldl_revoke_live_subset (l : List JournalEntry) (t : JournalState) :
    ((l.foldl (fun acc e => revokeAudioUrl e acc) t).live) ⊆ t.live := by
  induction l generalizing t with
  | nil => exact fun m hm => hm
  | cons x rest ih =>
    exact fun m hm => revokeAudioUrl_live_subset x t ((ih (revokeAudioUrl x t)) hm)

lemma foldl_revoke_releases (l : List JournalEntry) (t : JournalState) (n : Nat) :
    ∀ e ∈ l, e.audioUrl = some (AudioUrl.blobUrl n) →
      n ∉ ((l.foldl (fun acc e => revokeAudioUrl e acc) t).live) := by
  induction l generalizing t with
  | nil => intro e he; cases he
  | cons x rest ih =>
    intro e he hurl
    rcases List.mem_cons.mp he with he | he
    · subst he
      intro hmem
      have h1 : n ∈ (revokeAudioUrl e t).live :=
        foldl_revoke_live_subset rest (revokeAudioUrl e t) hmem
      unfold revokeAudioUrl revokeObjectURL at h1
      rw [hurl] at h1
      simp [List.mem_filter] at h1
    · exact ih (revokeAudioUrl x t) e he hurl

/-- Claim C5 (amended): `remove(id)` releases the blob handle of the entry it
finds in memory under `id`, and `clear()` releases the blob handles of all
in-memory entries; but handle hygiene does not hold across `hydrate`, which
replaces the in-memory list without revoking the displaced handles (see the
counterexample), so a handle derived by `add` before hydration leaks. -/
theorem c5_amended (s : JournalState) (id : String) (ex : JournalEntry)
    (hex : s.entries.find? (fun x => x.id == id) = some ex) :
    (∀ n, ex.audioUrl = some (AudioUrl.blobUrl n) →
      n ∉ (removeEntry true id s).1.live) ∧
    (∀ e ∈ s.entries, ∀ n, e.audioUrl = some (AudioUrl.blobUrl n) →
      n ∉ (clearAll true s).1.live) := by
  constructor
  · intro n hn
    simp [removeEntry, deleteJournal, hex, revokeAudioUrl, revokeObjectURL, hn,
      List.mem_filter]
  · intro e he n hn
    unfold clearAll
    dsimp only
    exact foldl_revoke_releases s.entries (clearJournals s) n e he hn

/-- An entry owning the live blob handle 2, and a state holding it. -/
def eW5 : JournalEntry := { entryAt "w" 5 with audioUrl := some (AudioUrl.blobUrl 2) }

/-- A state holding `eW5` with its handle live. -/
def sW5 : JournalState := { initState with entries := [eW5], nextUrl := 3, live := [2] }

/-- Witness for C5 (amended) at the concrete state `sW5`. -/
theorem c5_witness :
    sW5.entries.find? (fun x => x.id == "w") = some eW5 ∧
    ((∀ n, eW5.audioUrl = some (AudioUrl.blobUrl n) →
        n ∉ (removeEntry true "w" sW5).1.live) ∧
      (∀ e ∈ sW5.entries, ∀ n, e.audioUrl = some (AudioUrl.blobUrl n) →
        n ∉ (clearAll true sW5).1.live)) :=
  ⟨by decide, c5_amended sW5 "w" eW5 (by decide)⟩

lemma hydrate_of_hydrated {t : JournalState} (h : t.hydrated = true) : hydrate t = t := by
  unfold hydrate
  simp [h]

lemma hydrate_hydrated (s : JournalState) : (hydrate s).hydrated = true := by
  unfold hydrate
  split
  · assumption
  · rfl

lemma deriveUrls_map_persisted (l : List JournalEntry) (s : JournalState) :
    ((deriveUrls l s).1).map persistedPart = l.map persistedPart := by
  induction l generalizing s with
  | nil => rfl
  | cons e rest ih =>
    unfold deriveUrls
    cases hu : e.audioUrl with
    | some u => simp [ih]
    | none => cases hb : e.audioBlob <;> simp [ih, persistedPart, hb]

/-- Claim C6: `hydrate` is a no-op while already hydrated (hence idempotent),
marks the state hydrated, and an effective hydrate loads exactly the store's
records (transient handle aside) into memory sorted newest-first. -/
theorem c6 (s : JournalState) :
    (s.hydrated = true → hydrate s = s) ∧
    hydrate (hydrate s) = hydrate s ∧
    (hydrate s).hydrated = true ∧
    (s.hydrated = false →
      List.Pairwise entryLe (hydrate s).entries ∧
      ((hydrate s).entries.map persistedPart).Perm (s.store.map persistedPart)) := by
  refine ⟨fun h => hydrate_of_hydrated h,
    hydrate_of_hydrated (hydrate_hydrated s), hydrate_hydrated s, ?_⟩
  intro h
  constructor
  · rw [hydrate_entries_of_not_hydrated h, pairwise_entryLe_iff, deriveUrls_map_createdAt]
    rw [← pairwise_entryLe_iff]
    exact sorted_sortByCreatedAtDesc s.store
  · rw [hydrate_entries_of_not_hydrated h, deriveUrls_map_persisted]
    exact (perm_sortByCreatedAtDesc s.store).map persistedPart

/-- An already-hydrated state. -/
def sHyd : JournalState :=
  { initState with hydrated := true, entries := [entryAt "h" 1] }

/-- Witness for C6: a hydrated state is left unchanged, and hydrating a fresh
state with a two-record store yields a sorted load of exactly those records. -/
theorem c6_witness :
    (sHyd.hydrated = true ∧ hydrate sHyd = sHyd) ∧
    (stStorePQ.hydrated = false ∧
      (List.Pairwise entryLe (hydrate stStorePQ).entries ∧
        ((hydrate stStorePQ).entries.map persistedPart).Perm
          (stStorePQ.store.map persistedPart))) :=
  ⟨⟨rfl, (c6 sHyd).1 rfl⟩, ⟨rfl, (c6 stStorePQ).2.2.2 rfl⟩⟩

/-- Claim C7 (round trip): adding any entry to a fresh state stores exactly
its persisted fields with the transient handle stripped (`audioUrl` is never
written), and hydrating a fresh in-memory state over that store reproduces
every persisted field exactly, with the handle re-derived from the stored
audio payload (fresh handle 0) when a payload is present, absent otherwise. -/
theorem c7 (e : JournalEntry) :
    (addEntry true e initState).1.store = [persistedPart e] ∧
    (hydrate { initState with store := (addEntry true e initState).1.store }).entries
      = [{ e with audioUrl := match e.audioBlob with
            | some _ => some (AudioUrl.blobUrl 0)
            | none => none }] := by
  obtain ⟨i, c, tr, d, ab, au, en, ti, em⟩ := e
  cases au <;> cases ab <;> exact ⟨rfl, rfl⟩

/-- The `RecorderStatus` union of `Recorder.tsx`. -/
inductive RecorderStatus where
  | idle
  | recording
  | paused
  | preview
  | error
deriving DecidableEq

/-- The component state of `Recorder.tsx`: React state, the refs, and a local
view of the object-URL allocator for the preview handle. -/
structure RecorderState where
  status : RecorderStatus
  elapsed : Nat
  elapsedRef : Nat
  errMsg : Option String
  previewUrl : Option Nat
  previewDuration : Nat
  chunks : List Nat
  hasTimer : Bool
  hasStream : Bool
  hasRecorder : Bool
  recNextUrl : Nat
  recLive : List Nat
deriving DecidableEq

/-- `stopTracks`: clears the timer and releases the stream and recorder refs. -/
def stopTracks (s : RecorderState) : RecorderState :=
  { s with hasTimer := false, hasStream := false, hasRecorder := false }

/-- `resetState`: stops tracks, zeroes the counters, revokes and clears the
preview URL, empties the chunks and returns to `idle`. -/
def resetState (s : RecorderState) : RecorderState :=
  let s1 := stopTracks s
  let s2 := { s1 with elapsed := 0 }
  let s3 :=
    match s2.previewUrl with
    | some u => { s2 with recLive := s2.recLive.filter (fun m => m != u), previewUrl := none }
    | none => { s2 with previewUrl := none }
  { s3 with previewDuration := 0, elapsedRef := 0, chunks := [], status := RecorderStatus.idle }

/-- `startRecording`: on device acquisition success begins a session; on
failure records the error message and enters the `error` state. -/
def startRecording (ok : Bool) (s : RecorderState) : RecorderState :=
  if ok then
    { s with hasStream := true, hasRecorder := true, chunks := [], elapsedRef := 0,
             status := RecorderStatus.recording, elapsed := 0, hasTimer := true }
  else
    { s with errMsg := some "Microphone permissions are required to record audio.",
             status := RecorderStatus.error }

/-- The `ondataavailable` handler: appends a chunk when its size is nonzero. -/
def onDataAvailable (c : Nat) (s : RecorderState) : RecorderState :=
  if c = 0 then s else { s with chunks := s.chunks ++ [c] }

/-- The `onstop` handler: stops tracks, mints the preview URL from the
accumulated chunks, freezes the duration and enters `preview`. -/
def onStopEvent (s : RecorderState) : RecorderState :=
  let s1 := stopTracks s
  { s1 with previewUrl := some s1.recNextUrl,
            recNextUrl := s1.recNextUrl + 1,
            recLive := s1.recLive ++ [s1.recNextUrl],
            previewDuration := s1.elapsedRef,
            status := RecorderStatus.preview }

/-- `handlePause`: toggles between `recording` and `paused` when a recorder
exists, freezing or restarting the timer. -/
def handlePause (s : RecorderState) : RecorderState :=
  if s.hasRecorder then
    match s.status with
    | RecorderStatus.recording => { s with hasTimer := false, status := RecorderStatus.paused }
    | RecorderStatus.paused => { s with hasTimer := true, status := RecorderStatus.recording }
    | _ => s
  else s

/-- `handleStop`: asks the recorder to stop, which fires `onstop`. -/
def handleStop (s : RecorderState) : RecorderState :=
  if s.hasRecorder then onStopEvent s else s

/-- `handleDiscard` is `resetState`. -/
def handleDiscard (s : RecorderState) : RecorderState := resetState s

/-- `handleSave`: guarded on the preview URL; emits the finalized
(chunks-as-blob, previewDuration) pair and resets the session to `idle`. -/
def handleSave (s : RecorderState) : RecorderState × Option (List Nat × Nat) :=
  match s.previewUrl with
  | none => (s, none)
  | some _ => (resetState s, some (s.chunks, s.previewDuration))

/-- Claim C8: once `save()` has emitted a finalized pair, the session is back
in `idle` with the preview state cleared, and a second `save()` without an
intervening `start()` emits nothing — it is rejected by the `previewUrl`
guard. -/
theorem c8 (s : RecorderState) (h : ((handleSave s).2).isSome = true) :
    (handleSave s).1.status = RecorderStatus.idle ∧
    (handleSave s).1.previewUrl = none ∧
    (handleSave s).1.previewDuration = 0 ∧
    (handleSave ((handleSave s).1)).2 = none := by
  cases hu : s.previewUrl with
  | none =>
    unfold handleSave at h
    rw [hu] at h
    simp at h
  | some u =>
    simp [handleSave, resetState, stopTracks, hu]

/-- A recorder state sitting in `preview` with a finalized take. -/
def sPrev : RecorderState :=
  { status := RecorderStatus.preview, elapsed := 4, elapsedRef := 4, errMsg := none,
    previewUrl := some 0, previewDuration := 4, chunks := [2, 3], hasTimer := false,
    hasStream := false, hasRecorder := false, recNextUrl := 1, recLive := [0] }

/-- Witness for C8 at the concrete preview state. -/
theorem c8_witness :
    ((handleSave sPrev).2).isSome = true ∧
    ((handleSave sPrev).1.status = RecorderStatus.idle ∧
      (handleSave sPrev).1.previewUrl = none ∧
      (handleSave sPrev).1.previewDuration = 0 ∧
      (handleSave ((handleSave sPrev).1)).2 = none) :=
  ⟨rfl, c8 sPrev rfl⟩

/-- The transcription collaborator response consumed by `Journals.tsx`,
with both fields defensively optional (`data?.transcript ?? ""`,
`data?.duration ?? duration`). -/
structure TranscribeResponse where
  transcript : Option String
  duration : Option Int
deriving DecidableEq

/-- `transcript.split(" ").slice(0, 5).join(" ")`. -/
def firstFiveWords (t : String) : String :=
  String.intercalate " " ((t.splitOn " ").take 5)

/-- The entry literal built in `handleRecordingReady` of `Journals.tsx` from
the collaborator response, the locally measured duration, the generated id,
the creation instant, the recorded blob and its freshly minted URL. -/
def mkRecordingEntry (data : Option TranscribeResponse) (localDuration : Int)
    (newId : String) (now : Int) (blob : Nat) (url : AudioUrl) : JournalEntry :=
  { id := newId,
    createdAt := now,
    transcript := (data.bind TranscribeResponse.transcript).getD "",
    duration := (data.bind TranscribeResponse.duration).getD localDuration,
    audioBlob := some blob,
    audioUrl := some url,
    encrypted := false,
    title :=
      match data.bind TranscribeResponse.transcript with
      | some t => if t = "" then none else some (firstFiveWords t)
      | none => none,
    emotion := none }

/-- Claim C9: the constructed entry's transcript is the collaborator's
transcript, or empty when absent; its duration is the collaborator's,
falling back to the locally measured elapsed time when absent; and its title
is the first five words of the resulting transcript exactly when that
transcript is non-empty, absent otherwise. -/
theorem c9 (data : Option TranscribeResponse) (ld : Int) (i : String) (n : Int)
    (b : Nat) (u : AudioUrl) :
    ((∀ t, data.bind TranscribeResponse.transcript = some t →
        (mkRecordingEntry data ld i n b u).transcript = t) ∧
      (data.bind TranscribeResponse.transcript = none →
        (mkRecordingEntry data ld i n b u).transcript = "")) ∧
    ((∀ d, data.bind TranscribeResponse.duration = some d →
        (mkRecordingEntry data ld i n b u).duration = d) ∧
      (data.bind TranscribeResponse.duration = none →
        (mkRecordingEntry data ld i n b u).duration = ld)) ∧
    ((mkRecordingEntry data ld i n b u).title =
      if (mkRecordingEntry data ld i n b u).transcript = "" then none
      else some (firstFiveWords (mkRecordingEntry data ld i n b u).transcript)) := by
  refine ⟨⟨?_, ?_⟩, ⟨?_, ?_⟩, ?_⟩
  · intro t ht
    simp [mkRecordingEntry, ht]
  · intro ht
    simp [mkRecordingEntry, ht]
  · intro d hd
    simp [mkRecordingEntry, hd]
  · intro hd
    simp [mkRecordingEntry, hd]
  · cases ht : data.bind TranscribeResponse.transcript with
    | none => simp [mkRecordingEntry, ht]
    | some t =>
      by_cases he : t = "" <;> simp [mkRecordingEntry, ht, he]

/-- A concrete collaborator response. -/
def respW : Option TranscribeResponse :=
  some { transcript := some "hello world one two three four", duration := some 7 }

/-- Witness for C9 at the concrete response `respW`. -/
theorem c9_witness :
    (respW.bind TranscribeResponse.transcript = some "hello world one two three four" ∧
      (mkRecordingEntry respW 3 "i" 0 0 (AudioUrl.blobUrl 0)).transcript
        = "hello world one two three four") ∧
    (respW.bind TranscribeResponse.duration = some 7 ∧
      (mkRecordingEntry respW 3 "i" 0 0 (AudioUrl.blobUrl 0)).duration = 7) ∧
    ((mkRecordingEntry respW 3 "i" 0 0 (AudioUrl.blobUrl 0)).title =
      if (mkRecordingEntry respW 3 "i" 0 0 (AudioUrl.blobUrl 0)).transcript = "" then none
      else some (firstFiveWords
        (mkRecordingEntry respW 3 "i" 0 0 (AudioUrl.blobUrl 0)).transcript)) :=
  ⟨⟨rfl, (c9 respW 3 "i" 0 0 (AudioUrl.blobUrl 0)).1.1 _ rfl⟩,
   ⟨rfl, (c9 respW 3 "i" 0 0 (AudioUrl.blobUrl 0)).2.1.1 7 rfl⟩,
   (c9 respW 3 "i" 0 0 (AudioUrl.blobUrl 0)).2.2⟩
